import Mathlib

/-
Verification of the event dispatch engine of the Type-Safe-Event-System
repository (src/src/core/emitter.ts, src/src/core/observable.ts).

The TypeScript code is shallowly embedded: promises that always settle are
modelled as total functions, a settled promise is a value of type Settled,
asynchronous listener bodies are modelled by their observable outcome
(BodyResult), and the JavaScript Map/Set containers are modelled by
association lists and lists that preserve insertion order, which is what
the JS iteration order guarantees.
-/

namespace EventSystem

/-- Error values carried by thrown exceptions (Error objects in the source). -/
abbrev Err := String

/-- Event envelope, from createEvent in src/src/core/emitter.ts and the Event
interface in src/src/core/types.ts.  Only the fields the verified claims
depend on are carried: the event name (type), a payload and the id. -/
structure Event where
  type : String
  payload : Nat
  id : Nat
deriving DecidableEq, Repr

/-- Outcome of one asynchronous listener body on a given event: it settles
successfully, it throws, or it outlasts any configured timeout (slow).
A slow body loses the Promise.race in executeWithTimeout; without a timeout
option it simply settles successfully later. -/
inductive BodyResult where
  | ok
  | throws (msg : Err)
  | slow
deriving DecidableEq, Repr

/-- How a promise settled, as seen by Promise.allSettled in notifyListeners. -/
inductive Settled where
  | fulfilled
  | rejected (msg : Err)
deriving DecidableEq, Repr

/-- Mirror of result.status === "fulfilled" in notifyListeners. -/
def Settled.isFulfilled : Settled → Bool
  | .fulfilled => true
  | .rejected _ => false

/-- ListenerWrapper from src/src/core/emitter.ts: the registered listener
plus its options and per-listener mutable state (callCount, isDisposed).
The listener function itself is modelled by its outcome on each event. -/
structure ListenerWrapper where
  id : String
  priority : Int
  condition : Option (Event → Bool)
  maxCalls : Option Nat
  once : Bool
  timeout : Option Nat
  body : Event → BodyResult
  callCount : Nat
  isDisposed : Bool

/-- The constructor line priority = options.priority || ListenerPriority.NORMAL:
an absent priority, and also an explicit priority of 0 (falsy in JS), become
NORMAL = 5 (src/src/core/types.ts). -/
def effectivePriority (p : Option Int) : Int :=
  match p with
  | none => 5
  | some v => if v = 0 then 5 else v

/-- Gate options.maxCalls && callCount >= options.maxCalls in execute:
a maxCalls of 0 is falsy in JS, so it never triggers. -/
def maxCallsReached (w : ListenerWrapper) : Bool :=
  match w.maxCalls with
  | some m => decide (m ≠ 0) && decide (m ≤ w.callCount)
  | none => false

/-- Gate options.condition && !options.condition(event) in execute. -/
def conditionSkips (w : ListenerWrapper) (e : Event) : Bool :=
  match w.condition with
  | some c => !(c e)
  | none => false

/-- The body of execute after the gates: await the listener, racing it
against a timer when options.timeout is set (and nonzero, since 0 is falsy);
a slow body then rejects with the distinct timeout error message from
executeWithTimeout. -/
def runBody (w : ListenerWrapper) (e : Event) : Settled :=
  match w.timeout with
  | some tmo =>
    if tmo ≠ 0 then
      match w.body e with
      | BodyResult.ok => Settled.fulfilled
      | BodyResult.throws msg => Settled.rejected msg
      | BodyResult.slow =>
          Settled.rejected ("Listener timeout after " ++ toString tmo ++ "ms")
    else
      match w.body e with
      | BodyResult.ok => Settled.fulfilled
      | BodyResult.throws msg => Settled.rejected msg
      | BodyResult.slow => Settled.fulfilled
  | none =>
    match w.body e with
    | BodyResult.ok => Settled.fulfilled
    | BodyResult.throws msg => Settled.rejected msg
    | BodyResult.slow => Settled.fulfilled

/-- ListenerWrapper.execute: the per-call checks, the call counter, the body,
and the auto-dispose on once.  When the body throws, the exception propagates
before the once line runs, so a rejected call does not self-dispose.
Returns the settled outcome together with the updated wrapper state. -/
def ListenerWrapper.execute (w : ListenerWrapper) (e : Event) :
    Settled × ListenerWrapper :=
  if w.isDisposed then (Settled.fulfilled, w)
  else if maxCallsReached w then (Settled.fulfilled, { w with isDisposed := true })
  else if conditionSkips w e then (Settled.fulfilled, w)
  else
    let w1 := { w with callCount := w.callCount + 1 }
    match runBody w e with
    | Settled.fulfilled =>
        (Settled.fulfilled, if w.once then { w1 with isDisposed := true } else w1)
    | Settled.rejected msg => (Settled.rejected msg, w1)

/-- Middleware (src/src/middleware/base.ts shape used by the emitter): an
optional before hook that transforms the event or throws, and the presence
of an onError hook.  The after hook is fire-and-forget (setImmediate) and
does not affect any verified claim, so it is not carried. -/
structure Middleware where
  name : String
  before : Option (Event → Except Err Event)
  hasOnError : Bool

/-- runBeforeMiddlewares: fold the before hooks in registration order,
threading the (possibly transformed) event; the first thrown error aborts. -/
def runBefore : List Middleware → Event → Except Err Event
  | [], e => Except.ok e
  | m :: rest, e =>
    match m.before with
    | none => runBefore rest e
    | some f =>
      match f e with
      | Except.ok e2 => runBefore rest e2
      | Except.error msg => Except.error msg

/-- runErrorMiddlewares: every registered middleware with an onError hook is
invoked, in registration order; a failure inside one hook is swallowed
(logged only), so it never affects which other hooks run.  The result is
the list of middleware names whose onError hook was invoked. -/
def runErrorMiddlewares (ms : List Middleware) : List String :=
  (ms.filter (fun m => m.hasOnError)).map (fun m => m.name)

/-- EmitError entries from src/src/core/types.ts (the event and timestamp
fields do not influence any claim and are omitted). -/
structure EmitError where
  listenerId : String
  error : Err
deriving DecidableEq, Repr

/-- EmitResult fields relevant to the claims. -/
structure EmitResult where
  listenersNotified : Nat
  errors : List EmitError
  success : Bool
deriving DecidableEq, Repr

structure NotificationResult where
  successCount : Nat
  errors : List EmitError
deriving DecidableEq, Repr

/-- The whole mutable state of one TypedEventEmitter: the listeners Map
(event name to registration-ordered wrappers), the middleware list, and the
observables Map (event name to insertion-ordered stream ids). -/
structure EmitterState where
  listeners : List (String × List ListenerWrapper)
  middlewares : List Middleware
  observables : List (String × List Nat)

/-- Lookup in an association list, mirroring Map.get. -/
def alookup {β : Type} : List (String × β) → String → Option β
  | [], _ => none
  | b :: rest, k => if b.1 = k then some b.2 else alookup rest k

/-- The snapshot Array.from(this.listeners.get(event.type)) taken by
notifyListeners, in registration order; empty when no bucket exists. -/
def snapshotFor (s : EmitterState) (e : Event) : List ListenerWrapper :=
  (alookup s.listeners e.type).getD []

/-- Comparator b.priority - a.priority of notifyListeners, as the boolean
order it induces: a before b when b.priority is at most a.priority. -/
def priorityLe (a b : ListenerWrapper) : Bool :=
  decide (b.priority ≤ a.priority)

/-- listeners.sort((a, b) => b.priority - a.priority): a stable sort by
descending priority.  JS Array.prototype.sort is guaranteed stable, which
List.mergeSort models exactly. -/
def sortListeners (l : List ListenerWrapper) : List ListenerWrapper :=
  l.mergeSort priorityLe

/-- The settled outcomes Promise.allSettled observes, indexed in the sorted
(start) order, each paired with the wrapper id used for error reporting. -/
def dispatchSettled (s : EmitterState) (e : Event) : List (String × Settled) :=
  (sortListeners (snapshotFor s e)).map (fun w => (w.id, (w.execute e).1))

/-- The successCount aggregation loop of notifyListeners. -/
def settledSuccesses (l : List (String × Settled)) : Nat :=
  (l.filter (fun p => p.2.isFulfilled)).length

/-- The errors.push aggregation loop of notifyListeners. -/
def settledErrors (l : List (String × Settled)) : List EmitError :=
  l.filterMap (fun p =>
    match p.2 with
    | Settled.rejected msg => some { listenerId := p.1, error := msg }
    | Settled.fulfilled => none)

/-- notifyListeners: snapshot, stable sort by descending priority, start all
executions (their outcomes are independent, so the parallel fan-out is the
map of execute over the sorted snapshot), aggregate with allSettled.
Also returns the emitter state with each executed wrapper updated. -/
def notifyListeners (s : EmitterState) (e : Event) :
    NotificationResult × EmitterState :=
  match alookup s.listeners e.type with
  | none => ({ successCount := 0, errors := [] }, s)
  | some snapshot =>
    if snapshot.isEmpty then ({ successCount := 0, errors := [] }, s)
    else
      let settled := dispatchSettled s e
      ({ successCount := settledSuccesses settled, errors := settledErrors settled },
       { s with listeners := s.listeners.map (fun b =>
           if b.1 = e.type then (b.1, b.2.map (fun w => (w.execute e).2)) else b) })

/-- notifyObservables: the set of stream ids whose next method is invoked
with the event (observables.get(event.type), none when no bucket). -/
def notifyObservables (s : EmitterState) (e : Event) : List Nat :=
  (alookup s.observables e.type).getD []

/-- PHASE 1 of emit: the before pipeline, skipped under options.skipMiddleware. -/
def pipelineResult (s : EmitterState) (e : Event) (skip : Bool) : Except Err Event :=
  if skip then Except.ok e else runBefore s.middlewares e

/-- Everything observable about one call to emit: the resolved EmitResult,
the middleware onError hooks that were invoked, the stream ids notified in
PHASE 3, and the updated emitter state. -/
structure EmitOutcome where
  result : EmitResult
  onErrorInvoked : List String
  observablesNotified : List Nat
  state : EmitterState

/-- emit (src/src/core/emitter.ts): run the before pipeline unless skipped,
notify the listeners, notify the observables, and build the EmitResult with
success = (errors.length === 0).  When a before hook throws, the catch
branch reports zero listeners notified, a single error entry with listener
id "middleware", success = false, and the onError hooks of all registered
middleware have been invoked by runBeforeMiddlewares before rethrowing.
As a Lean total function, emit always returns: the promise resolves. -/
def emit (s : EmitterState) (e : Event) (skip : Bool) : EmitOutcome :=
  match pipelineResult s e skip with
  | Except.ok pe =>
    let nr := (notifyListeners s pe).1
    { result :=
        { listenersNotified := nr.successCount
          errors := nr.errors
          success := nr.errors.isEmpty }
      onErrorInvoked := []
      observablesNotified := notifyObservables s pe
      state := (notifyListeners s pe).2 }
  | Except.error msg =>
    { result :=
        { listenersNotified := 0
          errors := [{ listenerId := "middleware", error := msg }]
          success := false }
      onErrorInvoked := runErrorMiddlewares s.middlewares
      observablesNotified := []
      state := s }

/-! Helper lemmas about the dispatch aggregation. -/

theorem priorityLe_trans : ∀ a b c : ListenerWrapper,
    priorityLe a b → priorityLe b c → priorityLe a c := by
  intro a b c hab hbc
  simp only [priorityLe, decide_eq_true_eq] at *
  omega

theorem priorityLe_total : ∀ a b : ListenerWrapper,
    priorityLe a b || priorityLe b a := by
  intro a b
  simp only [priorityLe, Bool.or_eq_true, decide_eq_true_eq]
  omega

theorem sortListeners_perm (l : List ListenerWrapper) :
    List.Perm (sortListeners l) l :=
  List.mergeSort_perm l priorityLe

theorem sortListeners_stable (l : List ListenerWrapper) (p : Int) :
    (sortListeners l).filter (fun w => decide (w.priority = p))
      = l.filter (fun w => decide (w.priority = p)) := by
  have hall : ∀ a ∈ l.filter (fun w => decide (w.priority = p)),
      (fun w : ListenerWrapper => decide (w.priority = p)) a = true := by
    intro a ha
    exact (List.mem_filter.mp ha).2
  have hpair : (l.filter (fun w => decide (w.priority = p))).Pairwise
      (fun a b => priorityLe a b = true) := by
    refine List.pairwise_of_forall_mem_list ?_
    intro a ha b hb
    have ha2 := (List.mem_filter.mp ha).2
    have hb2 := (List.mem_filter.mp hb).2
    simp only [decide_eq_true_eq] at ha2 hb2
    simp [priorityLe, ha2, hb2]
  have hsub : List.Sublist (l.filter (fun w => decide (w.priority = p)))
      (sortListeners l) :=
    List.sublist_mergeSort priorityLe_trans priorityLe_total hpair
      (List.filter_sublist l)
  have hsub2 : List.Sublist (l.filter (fun w => decide (w.priority = p)))
      ((sortListeners l).filter (fun w => decide (w.priority = p))) := by
    have h2 := hsub.filter (fun w => decide (w.priority = p))
    rwa [List.filter_eq_self.mpr hall] at h2
  have hlen : ((sortListeners l).filter (fun w => decide (w.priority = p))).length
      = (l.filter (fun w => decide (w.priority = p))).length :=
    ((sortListeners_perm l).filter _).length_eq
  exact (hsub2.eq_of_length hlen.symm).symm

/-- The first component of notifyListeners is always the aggregation of the
settled outcomes of the sorted snapshot (an empty snapshot aggregates to
zero successes and no errors on both code paths). -/
theorem notifyListeners_fst (s : EmitterState) (e : Event) :
    (notifyListeners s e).1 =
      { successCount := settledSuccesses (dispatchSettled s e)
        errors := settledErrors (dispatchSettled s e) } := by
  unfold notifyListeners
  cases h : alookup s.listeners e.type with
  | none =>
    simp [dispatchSettled, snapshotFor, h, sortListeners, settledSuccesses,
      settledErrors]
  | some snapshot =>
    by_cases he : snapshot.isEmpty
    · have hnil : snapshot = [] := by
        cases snapshot with
        | nil => rfl
        | cons a rest => simp [List.isEmpty] at he
      subst hnil
      simp [dispatchSettled, snapshotFor, h, sortListeners, settledSuccesses,
        settledErrors]
    · simp [he]

/-- Every settled listener is counted exactly once: the fulfilled ones in
successCount, the rejected ones as error entries. -/
theorem settled_partition (l : List (String × Settled)) :
    settledSuccesses l + (settledErrors l).length = l.length := by
  induction l with
  | nil => simp [settledSuccesses, settledErrors]
  | cons p rest ih =>
    rcases p with ⟨pid, st⟩
    cases st <;>
      simp only [settledSuccesses, settledErrors, Settled.isFulfilled,
        List.filter_cons, List.filterMap_cons, List.length_cons] at * <;>
      simp_all <;> omega

/-- C3: for every emission, listeners are started in descending priority
order with ties broken by registration order (stable sort), regardless of
completion order.  notifyListeners starts the wrappers in the list order of
sortListeners of the registration-ordered snapshot, and this theorem shows
that order is a permutation of the snapshot, sorted by descending priority,
preserving the registration order of equal-priority listeners. -/
theorem dispatch_start_order (l : List ListenerWrapper) :
    List.Perm (sortListeners l) l ∧
    List.Pairwise (fun a b => b.priority ≤ a.priority) (sortListeners l) ∧
    ∀ p : Int, (sortListeners l).filter (fun w => decide (w.priority = p))
      = l.filter (fun w => decide (w.priority = p)) := by
  refine ⟨sortListeners_perm l, ?_, fun p => sortListeners_stable l p⟩
  have := @List.sorted_mergeSort ListenerWrapper priorityLe priorityLe_trans
    priorityLe_total l
  exact this.imp (by intro a b h; simpa [priorityLe] using h)

/-- C5: the resolved EmitResult always satisfies success = (errors.length
=== 0), on the normal dispatch path and on the pipeline-failure path. -/
theorem emit_success_iff_no_errors (s : EmitterState) (e : Event) (skip : Bool) :
    (emit s e skip).result.success = true ↔ (emit s e skip).result.errors = [] := by
  cases hp : pipelineResult s e skip with
  | ok pe => simp [emit, hp, List.isEmpty_iff]
  | error msg => simp [emit, hp]

/-- C1: if one listener of the dispatch snapshot throws (or times out), the
failure is recorded as an EmitError entry keyed by that listener id in the
resolved result, and every listener of the snapshot is still executed and
accounted for: successes plus error entries add up to the whole snapshot.
emit is a total function in this embedding, so the emission resolves. -/
theorem emit_isolates_listener_failures
    (s : EmitterState) (e pe : Event) (skip : Bool)
    (hpipe : pipelineResult s e skip = Except.ok pe)
    (w : ListenerWrapper) (msg : Err)
    (hw : w ∈ snapshotFor s pe)
    (hrej : (w.execute pe).1 = Settled.rejected msg) :
    ({ listenerId := w.id, error := msg } : EmitError) ∈ (emit s e skip).result.errors ∧
    (emit s e skip).result.listenersNotified + (emit s e skip).result.errors.length
      = (snapshotFor s pe).length := by
  have h1 : (emit s e skip).result.errors = settledErrors (dispatchSettled s pe) := by
    simp [emit, hpipe, notifyListeners_fst]
  have h2 : (emit s e skip).result.listenersNotified
      = settledSuccesses (dispatchSettled s pe) := by
    simp [emit, hpipe, notifyListeners_fst]
  have hmem : w ∈ sortListeners (snapshotFor s pe) :=
    ((sortListeners_perm (snapshotFor s pe)).mem_iff).mpr hw
  have hpairmem : (w.id, Settled.rejected msg) ∈ dispatchSettled s pe := by
    have hmap : (w.id, (w.execute pe).1)
        ∈ (sortListeners (snapshotFor s pe)).map
            (fun w2 => (w2.id, (w2.execute pe).1)) :=
      List.mem_map_of_mem _ hmem
    rw [hrej] at hmap
    exact hmap
  constructor
  · rw [h1]
    exact List.mem_filterMap.mpr ⟨(w.id, Settled.rejected msg), hpairmem, rfl⟩
  · rw [h1, h2]
    calc settledSuccesses (dispatchSettled s pe)
          + (settledErrors (dispatchSettled s pe)).length
        = (dispatchSettled s pe).length := settled_partition _
      _ = (sortListeners (snapshotFor s pe)).length := by
          simp [dispatchSettled]
      _ = (snapshotFor s pe).length := (sortListeners_perm _).length_eq

/-- Listener whose body throws, used in witnesses. -/
def wThrow : ListenerWrapper :=
  { id := "a", priority := 5, condition := none, maxCalls := none,
    once := false, timeout := none, body := fun _ => BodyResult.throws "boom",
    callCount := 0, isDisposed := false }

/-- Listener whose body settles successfully, used in witnesses. -/
def wOk : ListenerWrapper :=
  { id := "b", priority := 10, condition := none, maxCalls := none,
    once := false, timeout := none, body := fun _ => BodyResult.ok,
    callCount := 0, isDisposed := false }

def sC1 : EmitterState :=
  { listeners := [("x", [wThrow, wOk])], middlewares := [], observables := [] }

def evX : Event := { type := "x", payload := 0, id := 0 }

theorem emit_isolates_listener_failures_witness :
    ({ listenerId := "a", error := "boom" } : EmitError)
        ∈ (emit sC1 evX true).result.errors ∧
    (emit sC1 evX true).result.listenersNotified
        + (emit sC1 evX true).result.errors.length = 2 := by
  have hw : wThrow ∈ snapshotFor sC1 evX := by
    show wThrow ∈ [wThrow, wOk]
    exact List.mem_cons_self _ _
  have h := emit_isolates_listener_failures sC1 evX evX true rfl wThrow "boom" hw rfl
  exact ⟨h.1, h.2⟩

/-- C2: when a before middleware hook throws (and skipMiddleware is off),
emit resolves with zero listeners notified, the thrown error recorded under
listener id "middleware", success = false, the onError hooks of all
registered middleware invoked, and the listener state untouched. -/
theorem emit_pipeline_abort (s : EmitterState) (e : Event) (msg : Err)
    (h : runBefore s.middlewares e = Except.error msg) :
    (emit s e false).result.listenersNotified = 0 ∧
    (emit s e false).result.errors = [{ listenerId := "middleware", error := msg }] ∧
    (emit s e false).result.success = false ∧
    (∀ m ∈ s.middlewares, m.hasOnError = true →
      m.name ∈ (emit s e false).onErrorInvoked) ∧
    (emit s e false).state = s := by
  have hp : pipelineResult s e false = Except.error msg := by
    simp [pipelineResult, h]
  refine ⟨by simp [emit, hp], by simp [emit, hp], by simp [emit, hp], ?_,
    by simp [emit, hp]⟩
  intro m hm hme
  simp only [emit, hp, runErrorMiddlewares]
  exact List.mem_map_of_mem _ (List.mem_filter.mpr ⟨hm, by simp [hme]⟩)

/-- Middleware whose before hook throws, used in witnesses. -/
def mThrow : Middleware :=
  { name := "thrower", before := some (fun _ => Except.error "mw-fail"),
    hasOnError := false }

/-- Middleware with an onError hook only, used in witnesses. -/
def mHook : Middleware :=
  { name := "hook", before := none, hasOnError := true }

def sC2 : EmitterState :=
  { listeners := [("x", [wOk])], middlewares := [mThrow, mHook], observables := [] }

theorem emit_pipeline_abort_witness :
    (emit sC2 evX false).result.listenersNotified = 0 ∧
    (emit sC2 evX false).result.errors
      = [{ listenerId := "middleware", error := "mw-fail" }] ∧
    (emit sC2 evX false).result.success = false ∧
    "hook" ∈ (emit sC2 evX false).onErrorInvoked ∧
    (emit sC2 evX false).state = sC2 := by
  have h := emit_pipeline_abort sC2 evX "mw-fail" rfl
  refine ⟨h.1, h.2.1, h.2.2.1, ?_, h.2.2.2.2⟩
  exact h.2.2.2.1 mHook (List.mem_cons_of_mem _ (List.mem_cons_self _ _)) rfl

/-- Listener whose predicate rejects every event, used for the C4 analysis. -/
def wSkip : ListenerWrapper :=
  { id := "skip", priority := 5, condition := some (fun _ => false),
    maxCalls := none, once := false, timeout := none,
    body := fun _ => BodyResult.ok, callCount := 0, isDisposed := false }

def sC4 : EmitterState :=
  { listeners := [("x", [wSkip])], middlewares := [], observables := [] }

/-- C4 counterexample: an emitter whose only listener for the event has a
predicate returning false.  The claim says the skipped invocation
contributes nothing to listenersNotified, so it would have to be 0 here;
the code counts the skipped (fulfilled) execution as a success and the
resolved result reports listenersNotified = 1. -/
theorem predicate_skip_counted_counterexample :
    conditionSkips wSkip evX = true ∧
    (emit sC4 evX true).result.errors = [] ∧
    (emit sC4 evX true).result.listenersNotified = 1 := by
  have hds : dispatchSettled sC4 evX = [("skip", Settled.fulfilled)] := by
    simp [dispatchSettled, snapshotFor, sC4, evX, alookup, sortListeners,
      wSkip, ListenerWrapper.execute, maxCallsReached, conditionSkips]
  refine ⟨rfl, ?_, ?_⟩ <;>
    simp [emit, pipelineResult, notifyListeners_fst, hds, settledErrors,
      settledSuccesses, Settled.isFulfilled]

/-- C4 amended: a dispatched listener whose predicate returns false is
skipped silently in the sense that its body does not run, its wrapper state
is unchanged and it produces no EmitError entry; but its settled promise is
fulfilled, so it IS counted as a success in listenersNotified. -/
theorem predicate_skip_amended
    (s : EmitterState) (e pe : Event) (skip : Bool)
    (hpipe : pipelineResult s e skip = Except.ok pe)
    (w : ListenerWrapper)
    (hw : w ∈ snapshotFor s pe)
    (hnd : w.isDisposed = false)
    (hmc : maxCallsReached w = false)
    (hcs : conditionSkips w pe = true)
    (hid : ∀ x ∈ snapshotFor s pe, x.id = w.id → x = w) :
    w.execute pe = (Settled.fulfilled, w) ∧
    (∀ msg, ({ listenerId := w.id, error := msg } : EmitError)
      ∉ (emit s e skip).result.errors) ∧
    1 ≤ (emit s e skip).result.listenersNotified := by
  have hex : w.execute pe = (Settled.fulfilled, w) := by
    simp [ListenerWrapper.execute, hnd, hmc, hcs]
  have hfst : (w.execute pe).1 = Settled.fulfilled := by rw [hex]
  have h1 : (emit s e skip).result.errors = settledErrors (dispatchSettled s pe) := by
    simp [emit, hpipe, notifyListeners_fst]
  have h2 : (emit s e skip).result.listenersNotified
      = settledSuccesses (dispatchSettled s pe) := by
    simp [emit, hpipe, notifyListeners_fst]
  refine ⟨hex, ?_, ?_⟩
  · intro msg hmemE
    rw [h1] at hmemE
    obtain ⟨⟨pid, st⟩, hpmem, hf⟩ := List.mem_filterMap.mp hmemE
    cases st with
    | fulfilled => simp at hf
    | rejected m2 =>
      simp only [Option.some.injEq, EmitError.mk.injEq] at hf
      obtain ⟨hpid, hm2⟩ := hf
      obtain ⟨x, hxmem, hxeq⟩ := List.mem_map.mp hpmem
      have hxs : x ∈ snapshotFor s pe := ((sortListeners_perm _).mem_iff).mp hxmem
      have hxid : x.id = w.id := by
        have := congrArg Prod.fst hxeq
        simpa using this.trans hpid
      have hxw : x = w := hid x hxs hxid
      have : (w.execute pe).1 = Settled.rejected m2 := by
        have := congrArg Prod.snd hxeq
        simp only at this
        rw [hxw] at this
        exact this
      rw [hfst] at this
      exact Settled.noConfusion this
  · rw [h2]
    have hmem : w ∈ sortListeners (snapshotFor s pe) :=
      ((sortListeners_perm (snapshotFor s pe)).mem_iff).mpr hw
    have hmem2 : (w.id, Settled.fulfilled) ∈ dispatchSettled s pe := by
      have hmap : (w.id, (w.execute pe).1)
          ∈ (sortListeners (snapshotFor s pe)).map
              (fun w2 => (w2.id, (w2.execute pe).1)) :=
        List.mem_map_of_mem _ hmem
      rw [hfst] at hmap
      exact hmap
    have : (w.id, Settled.fulfilled)
        ∈ (dispatchSettled s pe).filter (fun p => p.2.isFulfilled) :=
      List.mem_filter.mpr ⟨hmem2, rfl⟩
    simpa [settledSuccesses] using List.length_pos_of_mem this

theorem predicate_skip_amended_witness :
    wSkip.execute evX = (Settled.fulfilled, wSkip) ∧
    ({ listenerId := "skip", error := "boom" } : EmitError)
      ∉ (emit sC4 evX true).result.errors ∧
    1 ≤ (emit sC4 evX true).result.listenersNotified := by
  have hw : wSkip ∈ snapshotFor sC4 evX := by
    show wSkip ∈ [wSkip]
    exact List.mem_cons_self _ _
  have hid : ∀ x ∈ snapshotFor sC4 evX, x.id = wSkip.id → x = wSkip := by
    intro x hx _
    have : x ∈ [wSkip] := hx
    simpa using this
  have h := predicate_skip_amended sC4 evX evX true rfl wSkip hw rfl rfl rfl hid
  exact ⟨h.1, h.2.1 "boom", h.2.2⟩

/-! The reactive stream layer (src/src/core/observable.ts). -/

/-- One delivery made to an observer: its next, error or complete callback. -/
inductive Delivery where
  | next (e : Event)
  | error (msg : Err)
  | complete
deriving DecidableEq, Repr

/-- Internal state of an EventObservable: the subscribed observers (ids, in
insertion order) and the two terminal flags. -/
structure StreamState where
  observers : List Nat := []
  isCompleted : Bool := false
  hasError : Bool := false
deriving DecidableEq, Repr

/-- EventObservable.next: silently dropped after a terminal transition;
otherwise each currently subscribed observer receives the event. -/
def StreamState.next (s : StreamState) (e : Event) :
    StreamState × List (Nat × Delivery) :=
  if s.isCompleted || s.hasError then (s, [])
  else (s, s.observers.map (fun oid => (oid, Delivery.next e)))

/-- EventObservable.error: terminal; marks hasError, notifies the observers
and clears the observer set; a no-op when already terminal. -/
def StreamState.error (s : StreamState) (msg : Err) :
    StreamState × List (Nat × Delivery) :=
  if s.isCompleted || s.hasError then (s, [])
  else ({ s with hasError := true, observers := [] },
        s.observers.map (fun oid => (oid, Delivery.error msg)))

/-- EventObservable.complete: terminal; marks isCompleted, notifies the
observers and clears the observer set; a no-op when already terminal. -/
def StreamState.complete (s : StreamState) :
    StreamState × List (Nat × Delivery) :=
  if s.isCompleted || s.hasError then (s, [])
  else ({ s with isCompleted := true, observers := [] },
        s.observers.map (fun oid => (oid, Delivery.complete)))

/-- SubscriptionImpl from src/src/core/emitter.ts: a disposer handle with a
closed flag; unsubscribe runs the removal callback only the first time.
The removal callback effect on the emitter is removeListener. -/
structure SubState where
  emitter : EmitterState
  closed : Bool

/-- TypedEventEmitter.removeListener: delete the wrapper from the bucket of
its event type and drop the bucket when it becomes empty. -/
def removeListener (s : EmitterState) (t : String) (wid : String) : EmitterState :=
  { s with listeners := s.listeners.filterMap (fun b =>
      if b.1 = t then
        let pruned := b.2.filter (fun w => !(w.id == wid))
        if pruned.isEmpty then none else some (b.1, pruned)
      else some b) }

/-- SubscriptionImpl.unsubscribe for a subscription on event type t with
listener id wid. -/
def subUnsubscribe (t : String) (wid : String) (s : SubState) : SubState :=
  if s.closed then s
  else { emitter := removeListener s.emitter t wid, closed := true }

/-- C9: unsubscribing a second time is a no-op; complete on an already
terminal stream has no effect; after a terminal transition (complete or
error from an active state), next, error and complete are all silent no-ops
and the observer set has been cleared. -/
theorem terminal_idempotence (t wid : String) (sub : SubState)
    (st : StreamState) (e : Event) (m1 m2 : Err) :
    subUnsubscribe t wid (subUnsubscribe t wid sub) = subUnsubscribe t wid sub ∧
    ((st.complete).1).complete = ((st.complete).1, []) ∧
    ((st.complete).1).next e = ((st.complete).1, []) ∧
    ((st.complete).1).error m1 = ((st.complete).1, []) ∧
    ((st.error m2).1).complete = ((st.error m2).1, []) ∧
    ((st.error m2).1).next e = ((st.error m2).1, []) ∧
    ((st.error m2).1).error m1 = ((st.error m2).1, []) ∧
    (st.isCompleted = false → st.hasError = false →
      ((st.complete).1).observers = [] ∧ ((st.error m2).1).observers = []) := by
  refine ⟨?_, ?_, ?_, ?_, ?_, ?_, ?_, ?_⟩
  · by_cases h : sub.closed <;> simp [subUnsubscribe, h]
  all_goals
    rcases st with ⟨obs, hc, he⟩
    cases hc <;> cases he <;>
      simp [StreamState.complete, StreamState.error, StreamState.next]

def subW : SubState :=
  { emitter := sC1, closed := false }

def stW : StreamState :=
  { observers := [1, 2], isCompleted := false, hasError := false }

theorem terminal_idempotence_witness :
    subUnsubscribe "x" "a" (subUnsubscribe "x" "a" subW)
      = subUnsubscribe "x" "a" subW ∧
    ((stW.complete).1).complete = ((stW.complete).1, []) ∧
    ((stW.complete).1).next evX = ((stW.complete).1, []) ∧
    ((stW.complete).1).error "e1" = ((stW.complete).1, []) ∧
    ((stW.error "e2").1).complete = ((stW.error "e2").1, []) ∧
    ((stW.error "e2").1).next evX = ((stW.error "e2").1, []) ∧
    ((stW.error "e2").1).error "e1" = ((stW.error "e2").1, []) ∧
    ((stW.complete).1).observers = [] ∧ ((stW.error "e2").1).observers = [] := by
  have h := terminal_idempotence "x" "a" subW stW evX "e1" "e2"
  have hobs := h.2.2.2.2.2.2.2 rfl rfl
  exact ⟨h.1, h.2.1, h.2.2.1, h.2.2.2.1, h.2.2.2.2.1, h.2.2.2.2.2.1,
    h.2.2.2.2.2.2.1, hobs.1, hobs.2⟩

/-! The take operator (EventObservable.take).  The downstream stream has a
single observer with id 0 subscribed from the start; upstream deliveries to
the take handler are a list of Delivery messages in upstream order. -/

/-- Per-subscription state of take: the received counter of the handler
closure and the state of the downstream taken stream. -/
structure TakeState where
  received : Nat
  down : StreamState
deriving DecidableEq, Repr

/-- The next handler installed on the upstream by take: forward while fewer
than count values have been received, and complete the downstream right
when the count-th value is forwarded. -/
def takeOnNext (count : Nat) (ts : TakeState) (e : Event) :
    TakeState × List (Nat × Delivery) :=
  if ts.received < count then
    let r1 := ts.down.next e
    if ts.received + 1 = count then
      let r2 := r1.1.complete
      ({ received := ts.received + 1, down := r2.1 }, r1.2 ++ r2.2)
    else
      ({ received := ts.received + 1, down := r1.1 }, r1.2)
  else (ts, [])

/-- The full observer take subscribes on the upstream: error and complete
are forwarded into the downstream stream (whose terminal guards apply). -/
def takeOnMsg (count : Nat) (ts : TakeState) :
    Delivery → TakeState × List (Nat × Delivery)
  | Delivery.next e => takeOnNext count ts e
  | Delivery.error msg =>
      let r := ts.down.error msg
      ({ ts with down := r.1 }, r.2)
  | Delivery.complete =>
      let r := ts.down.complete
      ({ ts with down := r.1 }, r.2)

/-- Run the take observer over a whole upstream trace, collecting the
deliveries made to the downstream observers. -/
def runTake (count : Nat) : TakeState → List Delivery → List (Nat × Delivery)
  | _, [] => []
  | ts, m :: rest =>
      (takeOnMsg count ts m).2 ++ runTake count (takeOnMsg count ts m).1 rest

/-- Downstream stream with observer 0 subscribed, before any delivery. -/
def downInit : StreamState := { observers := [0] }

def takeInit : TakeState := { received := 0, down := downInit }

/-- Observable behaviour of take(count) when the upstream emits the given
events and then completes.  For count <= 0 the source returns a fresh
stream and completes it on the next tick without subscribing upstream. -/
def takeOutput (count : Int) (events : List Event) : List (Nat × Delivery) :=
  if count ≤ 0 then (downInit.complete).2
  else runTake count.toNat takeInit (events.map Delivery.next ++ [Delivery.complete])

/-- Once the downstream has completed and the counter has reached count,
the take observer never delivers anything again. -/
theorem runTake_done (count : Nat) (msgs : List Delivery) :
    ∀ ts : TakeState, count ≤ ts.received → ts.down.isCompleted = true →
      runTake count ts msgs = [] := by
  induction msgs with
  | nil => intro ts _ _; rfl
  | cons m rest ih =>
    intro ts hc hd
    cases m with
    | next e =>
      have hlt : ¬ ts.received < count := by omega
      simp only [runTake, takeOnMsg, takeOnNext, hlt, if_false]
      exact ih ts hc hd
    | error msg =>
      simp only [runTake, takeOnMsg, StreamState.error, hd, Bool.true_or,
        if_true]
      simpa using ih ts hc hd
    | complete =>
      simp only [runTake, takeOnMsg, StreamState.complete, hd, Bool.true_or,
        if_true]
      simpa using ih ts hc hd

/-- Main run of take while the downstream is live: the next count - r
upstream values are forwarded, then complete is delivered exactly once. -/
theorem runTake_live (count : Nat) (events : List Event) :
    ∀ r : Nat, r < count →
      runTake count { received := r, down := downInit }
          (events.map Delivery.next ++ [Delivery.complete])
        = ((events.take (count - r)).map (fun e => (0, Delivery.next e)))
          ++ [(0, Delivery.complete)] := by
  induction events with
  | nil =>
    intro r _
    simp [runTake, takeOnMsg, StreamState.complete, downInit]
  | cons e es ih =>
    intro r hr
    have hnext : ∀ e2 : Event,
        downInit.next e2 = (downInit, [(0, Delivery.next e2)]) := fun _ => rfl
    have hcomp : downInit.complete
        = ({ observers := [], isCompleted := true, hasError := false },
           [(0, Delivery.complete)]) := rfl
    by_cases hlast : r + 1 = count
    · have hrun : runTake count
          { received := r + 1,
            down := { observers := [], isCompleted := true, hasError := false } }
          (es.map Delivery.next ++ [Delivery.complete]) = [] :=
        runTake_done count _ _ (Nat.le_of_eq hlast.symm) rfl
      rw [hlast] at hrun
      have htake : count - r = 1 := by omega
      simp [runTake, takeOnMsg, takeOnNext, hr, hlast, hnext, hcomp, hrun, htake]
    · have hr1 : r + 1 < count := by omega
      have htake : count - r = (count - (r + 1)) + 1 := by omega
      simp [runTake, takeOnMsg, takeOnNext, hr, hlast, hnext,
        ih (r + 1) hr1, htake]

/-- C6: take(count) forwards exactly min(count, number of upstream next
deliveries before upstream completion) values and then delivers complete to
the downstream observer exactly once; for count <= 0 the returned stream
completes without ever forwarding a value. -/
theorem take_output_spec (count : Int) (events : List Event) :
    takeOutput count events
      = ((events.take (min count.toNat events.length)).map
          (fun e => (0, Delivery.next e)))
        ++ [(0, Delivery.complete)] ∧
    (takeOutput count events).countP (fun p => decide (p.2 = Delivery.complete)) = 1 := by
  have hmain : takeOutput count events
      = ((events.take (min count.toNat events.length)).map
          (fun e => (0, Delivery.next e)))
        ++ [(0, Delivery.complete)] := by
    by_cases hc : count ≤ 0
    · have hz : count.toNat = 0 := Int.toNat_of_nonpos hc
      simp [takeOutput, hc, hz, downInit, StreamState.complete]
    · have hpos : 0 < count.toNat := by omega
      have h := runTake_live count.toNat events 0 hpos
      have htk : events.take count.toNat
          = events.take (min count.toNat events.length) := by
        by_cases hle : count.toNat ≤ events.length
        · rw [Nat.min_eq_left hle]
        · rw [Nat.min_eq_right (by omega), List.take_of_length_le (by omega),
            List.take_length]
      simp only [takeOutput, if_neg hc, takeInit]
      rw [show count.toNat - 0 = count.toNat from rfl] at h
      rw [h, htk]
  refine ⟨hmain, ?_⟩
  rw [hmain, List.countP_append]
  have hz : ((events.take (min count.toNat events.length)).map
      (fun e => (0, Delivery.next e))).countP
        (fun p => decide (p.2 = Delivery.complete)) = 0 := by
    rw [List.countP_eq_zero]
    intro p hp
    obtain ⟨a, _, ha⟩ := List.mem_map.mp hp
    subst ha
    simp
  rw [hz]
  rfl

/-! The throttle operator (EventObservable.throttle).  Time is modelled by
explicit millisecond timestamps on upstream deliveries; lastEmission starts
at 0 as in the source, and a scheduled setTimeout for a trailing emission is
kept as the pair of its fire time and the event captured when scheduling.
Timer callbacks whose fire time has arrived run before a later upstream
delivery is handled. -/

structure ThrottleState where
  lastEmission : Nat
  pending : Option (Nat × Event)
deriving DecidableEq, Repr

/-- Run the pending setTimeout callback when its fire time has arrived: it
emits the captured event downstream and updates lastEmission to the fire
time (Date.now() inside the callback). -/
def fireDue (st : ThrottleState) (now : Nat) :
    ThrottleState × List (Nat × Event) :=
  match st.pending with
  | some (ft, v) =>
      if ft ≤ now then ({ lastEmission := ft, pending := none }, [(ft, v)])
      else (st, [])
  | none => (st, [])

/-- The next handler of throttle at time t: emit immediately when at least
intervalMs has elapsed since lastEmission; otherwise schedule one trailing
emission at lastEmission + intervalMs when none is pending, and drop the
value when one is already pending.  Any timer due at or before t fires
first. -/
def throttleNext (intervalMs : Nat) (st : ThrottleState) (t : Nat) (e : Event) :
    ThrottleState × List (Nat × Event) :=
  let fired := fireDue st t
  let st1 := fired.1
  if intervalMs ≤ t - st1.lastEmission then
    ({ st1 with lastEmission := t }, fired.2 ++ [(t, e)])
  else
    match st1.pending with
    | none =>
        ({ st1 with pending := some (st1.lastEmission + intervalMs, e) }, fired.2)
    | some _ => (st1, fired.2)

/-- Process a timed upstream trace; after the last upstream delivery the
still-pending timer, if any, eventually fires. -/
def throttleRun (intervalMs : Nat) : ThrottleState → List (Nat × Event) →
    List (Nat × Event)
  | st, [] =>
      (match st.pending with
       | some (ft, v) => [(ft, v)]
       | none => [])
  | st, (t, e) :: rest =>
      (throttleNext intervalMs st t e).2
        ++ throttleRun intervalMs (throttleNext intervalMs st t e).1 rest

/-- The downstream emissions of throttle(intervalMs) over a timed trace,
starting from the initial state of the subscription. -/
def throttleOutput (intervalMs : Nat) (inputs : List (Nat × Event)) :
    List (Nat × Event) :=
  throttleRun intervalMs { lastEmission := 0, pending := none } inputs

def evA : Event := { type := "x", payload := 1, id := 1 }

def evB : Event := { type := "x", payload := 2, id := 2 }

def evC : Event := { type := "x", payload := 3, id := 3 }

/-- C7 counterexample: with a 10ms interval and upstream values evA at t=10,
evB at t=12 and evC at t=14, the trailing emission at the window boundary
t=20 carries evB, the value captured when the timer was scheduled, not the
most recent value evC received during the window: evC is dropped entirely,
refuting latest-wins coalescing. -/
theorem throttle_latest_wins_counterexample :
    throttleOutput 10 [(10, evA), (12, evB), (14, evC)]
      = [(10, evA), (20, evB)] ∧ evB ≠ evC := by
  refine ⟨rfl, by decide⟩

/-- C7 amended: throttle(intervalMs) emits a value immediately when at
least intervalMs has elapsed since its last emission; otherwise, when no
trailing emission is pending it schedules exactly one at the window
boundary lastEmission + intervalMs carrying the value received at
scheduling time, and while one is pending every further value of the
window is dropped; the emission at the boundary carries the captured
(first) value of the window, not the most recent one. -/
theorem throttle_amended (intervalMs : Nat) (last t ft now : Nat) (e v : Event)
    (hnodue : t < ft) (hdue : ft ≤ now) :
    (intervalMs ≤ t - last →
      throttleNext intervalMs { lastEmission := last, pending := none } t e
        = ({ lastEmission := t, pending := none }, [(t, e)])) ∧
    (t - last < intervalMs →
      throttleNext intervalMs { lastEmission := last, pending := none } t e
        = ({ lastEmission := last, pending := some (last + intervalMs, e) }, [])) ∧
    (t - last < intervalMs →
      throttleNext intervalMs { lastEmission := last, pending := some (ft, v) } t e
        = ({ lastEmission := last, pending := some (ft, v) }, [])) ∧
    fireDue { lastEmission := last, pending := some (ft, v) } now
      = ({ lastEmission := ft, pending := none }, [(ft, v)]) := by
  have hnofire : fireDue { lastEmission := last, pending := some (ft, v) } t
      = ({ lastEmission := last, pending := some (ft, v) }, []) := by
    simp [fireDue]
    omega
  refine ⟨?_, ?_, ?_, ?_⟩
  · intro h
    simp [throttleNext, fireDue, h]
  · intro h
    have h2 : ¬ intervalMs ≤ t - last := by omega
    simp [throttleNext, fireDue, h2]
  · intro h
    have h2 : ¬ intervalMs ≤ t - last := by omega
    simp [throttleNext, hnofire, h2]
  · simp [fireDue, hdue]

theorem throttle_amended_witness :
    throttleNext 10 { lastEmission := 12, pending := none } 25 evC
      = ({ lastEmission := 25, pending := none }, [(25, evC)]) ∧
    throttleNext 10 { lastEmission := 12, pending := none } 16 evC
      = ({ lastEmission := 12, pending := some (22, evC) }, []) ∧
    throttleNext 10 { lastEmission := 12, pending := some (22, evB) } 16 evC
      = ({ lastEmission := 12, pending := some (22, evB) }, []) ∧
    fireDue { lastEmission := 12, pending := some (22, evB) } 22
      = ({ lastEmission := 22, pending := none }, [(22, evB)]) := by
  have h1 := throttle_amended 10 12 25 30 30 evC evB (by decide) (by decide)
  have h2 := throttle_amended 10 12 16 22 22 evC evB (by decide) (by decide)
  exact ⟨h1.1 (by decide), h2.2.1 (by decide), h2.2.2.1 (by decide), h2.2.2.2⟩

/-! The emitter-to-stream wiring: stream() and removeAllListeners(). -/

/-- Adding an observable id to the bucket of an event type: Map.set with
lazy initialization of the Set, preserving insertion order. -/
def addObs : List (String × List Nat) → String → Nat → List (String × List Nat)
  | [], t, sid => [(t, [sid])]
  | b :: rest, t, sid =>
      if b.1 = t then (b.1, b.2 ++ [sid]) :: rest else b :: addObs rest t sid

/-- getActiveEventTypes: the keys of the listeners Map. -/
def activeEventTypes (s : EmitterState) : List String :=
  s.listeners.map (fun b => b.1)

/-- stream(eventType) with an explicit event type: register the fresh
observable under that one type. -/
def streamNamed (s : EmitterState) (t : String) (sid : Nat) : EmitterState :=
  { s with observables := addObs s.observables t sid }

/-- stream() without an event type: the source iterates
getActiveEventTypes() and registers the fresh observable under each type
that currently has a listener bucket. -/
def streamAll (s : EmitterState) (sid : Nat) : EmitterState :=
  { s with observables :=
      (activeEventTypes s).foldl (fun obs t => addObs obs t sid) s.observables }

/-- removeAllListeners(eventType?): deletes the listener bucket and, in the
same branch, the observables bucket of that event type; with no argument it
clears both maps entirely. -/
def removeAllListeners (s : EmitterState) (t : Option String) : EmitterState :=
  match t with
  | some ty =>
      { s with listeners := s.listeners.filter (fun b => !(b.1 == ty)),
               observables := s.observables.filter (fun b => !(b.1 == ty)) }
  | none => { s with listeners := [], observables := [] }

theorem alookup_filter_ne {β : Type} (l : List (String × β)) (ty : String) :
    alookup (l.filter (fun b => !(b.1 == ty))) ty = none := by
  induction l with
  | nil => rfl
  | cons b rest ih =>
    by_cases h : b.1 = ty <;> simp [alookup, h, ih]

/-- C10: removeAllListeners(name) also discards every observable stream
registered for that event name, and removeAllListeners() discards all
streams: after either call, an emission of a matching event notifies no
observable, including a stream registered through stream(name) before the
call. -/
theorem removeAllListeners_discards_streams (s : EmitterState) (e : Event)
    (sid : Nat) :
    alookup (removeAllListeners s (some e.type)).observables e.type = none ∧
    notifyObservables (removeAllListeners s (some e.type)) e = [] ∧
    notifyObservables (removeAllListeners s none) e = [] ∧
    notifyObservables
      (removeAllListeners (streamNamed s e.type sid) (some e.type)) e = [] := by
  refine ⟨alookup_filter_ne s.observables e.type, ?_, rfl, ?_⟩
  · simp [notifyObservables, removeAllListeners, alookup_filter_ne]
  · simp [notifyObservables, removeAllListeners, streamNamed, alookup_filter_ne]

theorem alookup_addObs_self (l : List (String × List Nat)) (t : String)
    (sid : Nat) :
    alookup (addObs l t sid) t = some ((alookup l t).getD [] ++ [sid]) := by
  induction l with
  | nil => simp [addObs, alookup]
  | cons b rest ih =>
    by_cases h : b.1 = t <;> simp [addObs, alookup, h, ih]

theorem alookup_addObs_ne (l : List (String × List Nat)) (t k : String)
    (sid : Nat) (h : k ≠ t) :
    alookup (addObs l t sid) k = alookup l k := by
  induction l with
  | nil => simp [addObs, alookup, h, Ne.symm h]
  | cons b rest ih =>
    by_cases hb : b.1 = t
    · subst hb
      simp [addObs, alookup, Ne.symm h]
    · by_cases hbk : b.1 = k <;> simp [addObs, alookup, hb, hbk, h, ih]

theorem mem_foldl_addObs (types : List String) (obs : List (String × List Nat))
    (sid : Nat) (k : String) :
    sid ∈ (alookup (types.foldl (fun o t => addObs o t sid) obs) k).getD []
      ↔ k ∈ types ∨ sid ∈ (alookup obs k).getD [] := by
  induction types generalizing obs with
  | nil => simp
  | cons t rest ih =>
    have hstep : sid ∈ (alookup (addObs obs t sid) k).getD []
        ↔ (k = t ∨ sid ∈ (alookup obs k).getD []) := by
      by_cases hk : k = t
      · subst hk
        simp [alookup_addObs_self]
      · simp [alookup_addObs_ne _ _ _ _ hk, hk]
    rw [List.foldl_cons, ih, hstep]
    simp [List.mem_cons]
    tauto

def sEmpty : EmitterState :=
  { listeners := [], middlewares := [], observables := [] }

/-- C8 counterexample: on an emitter with no registered listener,
stream() with no event name registers the new stream under no event type
at all, so an event emitted afterwards is not delivered to it, refuting
the claim that every subsequent event on any name reaches the stream. -/
theorem stream_all_events_counterexample :
    notifyObservables (streamAll sEmpty 7) evX = [] ∧
    7 ∉ notifyObservables (streamAll sEmpty 7) evX := by
  refine ⟨rfl, by simp [notifyObservables, streamAll, sEmpty, activeEventTypes, alookup]⟩

/-- C8 amended: stream() with no event name registers the stream exactly
under the event types that have a listener bucket at call time, so a later
emission is delivered to that stream if and only if its event name was
among the active event types when stream() was called (and no delivery at
all happens for other names). -/
theorem stream_all_delivers_iff (s : EmitterState) (sid : Nat) (e : Event)
    (hfresh : sid ∉ (alookup s.observables e.type).getD []) :
    sid ∈ notifyObservables (streamAll s sid) e ↔ e.type ∈ activeEventTypes s := by
  have h := mem_foldl_addObs (activeEventTypes s) s.observables sid e.type
  simp only [notifyObservables, streamAll] at *
  rw [h]
  exact or_iff_left hfresh

def sC8 : EmitterState :=
  { listeners := [("x", [wOk])], middlewares := [], observables := [] }

theorem stream_all_delivers_iff_witness :
    7 ∈ notifyObservables (streamAll sC8 7) evX ∧
    "x" ∈ activeEventTypes sC8 ∧
    (7 ∈ notifyObservables (streamAll sC8 7) evX ↔ "x" ∈ activeEventTypes sC8) := by
  have hiff := stream_all_delivers_iff sC8 7 evX (by simp [sC8, alookup])
  have hmem : "x" ∈ activeEventTypes sC8 := by
    simp [activeEventTypes, sC8]
  exact ⟨hiff.mpr hmem, hmem, hiff⟩

end EventSystem
